import Mathlib

/-!
Shallow embedding of the field-parsing and value-coercion core of the
sportsipy / sportsreference repository.

Source files embedded:
- src/sportsipy/ncaab/player.py (the noise-stripping cleanup helper and the
  int/float coercion property decorators)
- src/sportsipy/mlb/teams.py (the compound "W-L" sub-token coercion decorator,
  the Team raw record slice it reads, and the Teams abbreviation lookup)
- src/sportsreference/mlb/schedule.py (the Game raw record, its typed
  accessors, and the Schedule calendar-date lookup)

Python strings are modelled as Lean String, absent values as Option, raised
exceptions as Except PyErr.  Python float results are modelled exactly as Rat
(every decimal literal the parser accepts is a rational).  The int()/float()
built-in parsers are modelled for the standard decimal forms (optional
whitespace, optional sign, digits, decimal point, exponent); exotic forms
(digit-group underscores, inf/nan) are outside the model.
-/

/-- Kinds of Python exception the embedded code can raise. -/
inductive PyErr where
  | typeError
  | valueError
  | attributeError
  | indexError
  deriving DecidableEq, Repr

/-- Turn an optional value into an `Except`, raising `e` on `none` (the model
of a fallible Python expression inside a try/except-free context). -/
def exceptOfOption (e : PyErr) : Option α → Except PyErr α
  | none => .error e
  | some a => .ok a

/-- Numeric value of a decimal digit character. -/
def digitVal (c : Char) : Nat := c.toNat - '0'.toNat

/-- Value of a (nonempty) list of decimal digit characters, most significant
first. -/
def digitsVal (cs : List Char) : Nat := cs.foldl (fun a c => a * 10 + digitVal c) 0

/-- Python str.strip() as used implicitly by int()/float(): drop whitespace
from both ends. -/
def pyStrip (cs : List Char) : List Char :=
  ((cs.dropWhile Char.isWhitespace).reverse.dropWhile Char.isWhitespace).reverse

/-- Model of Python int(s) on a stripped character list: optional sign
followed by a nonempty run of decimal digits; anything else raises ValueError
(modelled as none). -/
def intFromChars (cs : List Char) : Option Int :=
  match cs with
  | [] => none
  | c :: rest =>
    if c = '-' then
      if rest ≠ [] ∧ rest.all Char.isDigit then some (-(digitsVal rest : Int)) else none
    else if c = '+' then
      if rest ≠ [] ∧ rest.all Char.isDigit then some (digitsVal rest : Int) else none
    else
      if cs.all Char.isDigit then some (digitsVal cs : Int) else none

/-- Model of Python int(s) on a string. -/
def pyParseInt (s : String) : Option Int := intFromChars (pyStrip s.data)

/-- Split a character list at the first character satisfying `p`; the second
component is `none` when no character satisfies `p`. -/
def breakAt (p : Char → Bool) : List Char → List Char × Option (List Char)
  | [] => ([], none)
  | c :: rest =>
    if p c then ([], some rest)
    else
      let r := breakAt p rest
      (c :: r.1, r.2)

/-- Mantissa of a Python float literal: digits with an optional decimal point,
at least one digit overall. -/
def parseMant (cs : List Char) : Option Rat :=
  let r := breakAt (fun c => c == '.') cs
  match r.2 with
  | none =>
    if cs ≠ [] ∧ cs.all Char.isDigit then some (digitsVal cs : Rat) else none
  | some fp =>
    if r.1.all Char.isDigit ∧ fp.all Char.isDigit ∧ (r.1 ≠ [] ∨ fp ≠ []) then
      some ((digitsVal r.1 : Rat) + (digitsVal fp : Rat) / ((10 : Rat) ^ fp.length))
    else none

/-- Mantissa plus optional exponent of a Python float literal. -/
def floatBody (cs : List Char) : Option Rat :=
  let r := breakAt (fun c => c == 'e' || c == 'E') cs
  match parseMant r.1, r.2 with
  | some m, none => some m
  | some m, some ex =>
    match intFromChars ex with
    | some e => some (if 0 ≤ e then m * (10 : Rat) ^ e.toNat else m / (10 : Rat) ^ (-e).toNat)
    | none => none
  | none, _ => none

/-- Model of Python float(s) on a stripped character list: optional sign then
mantissa and optional exponent. -/
def floatFromChars (cs : List Char) : Option Rat :=
  match cs with
  | [] => none
  | c :: _rest =>
    if c = '-' then (floatBody cs.tail).map (fun x => -x)
    else if c = '+' then floatBody cs.tail
    else floatBody cs

/-- Model of Python float(s) on a string. -/
def pyParseFloat (s : String) : Option Rat := floatFromChars (pyStrip s.data)

/-- Model of one Python replace call with a one-character pattern and the
empty replacement: every occurrence of `c` is removed. -/
def removeCharL (c : Char) : List Char → List Char
  | [] => []
  | x :: xs => if x = c then removeCharL c xs else x :: removeCharL c xs

/-- String version of `removeCharL`. -/
def removeChar (c : Char) (s : String) : String := ⟨removeCharL c s.data⟩

/-- Model of Python str.lower(), acting on the character list representation
(the repository only lower-cases ASCII markers). -/
def lowerStr (s : String) : String := ⟨s.data.map Char.toLower⟩

/-- Model of Python str.upper(), acting on the character list
representation. -/
def upperStr (s : String) : String := ⟨s.data.map Char.toUpper⟩

/-- Model of Python s.split(c) for a one-character separator, on character
lists: split at every occurrence of the separator; the result is always
nonempty and the empty input yields one empty part. -/
def splitOnCharL (c : Char) : List Char → List (List Char)
  | [] => [[]]
  | x :: xs =>
    let r := splitOnCharL c xs
    if x = c then [] :: r
    else
      match r with
      | [] => [[x]]
      | h :: t => (x :: h) :: t

/-- Model of Python s.split(c) for a one-character separator, on strings. -/
def splitOnChar (c : Char) (s : String) : List String :=
  (splitOnCharL c s.data).map String.mk

/-- Does `s` start with `pat`? -/
def startsList : List Char → List Char → Bool
  | [], _ => true
  | _ :: _, [] => false
  | p :: ps, c :: cs => p == c && startsList ps cs

/-- Model of the Python substring test `pat in s` on character lists. -/
def hasSubstrL (pat : List Char) : List Char → Bool
  | [] => startsList pat []
  | c :: cs => startsList pat (c :: cs) || hasSubstrL pat cs

/-- Model of the Python substring test `pat in s`. -/
def hasSubstr (pat s : String) : Bool := hasSubstrL pat.data s.data

/-- Fuelled scanner for `re.sub` with pattern matching the two characters
u, p followed by any run of spaces, replaced by nothing: scan left to right,
on a match consume the match and continue after it, otherwise copy the
character.  Fuel bounds the number of steps; each step consumes at least one
character, so `l.length` fuel is always sufficient. -/
def reSubUpF : Nat → List Char → List Char
  | 0, _ => []
  | _ + 1, [] => []
  | fuel + 1, 'u' :: 'p' :: rest => reSubUpF fuel (rest.dropWhile (fun c => c == ' '))
  | fuel + 1, c :: rest => c :: reSubUpF fuel rest

/-- Model of re.sub applied to the games-behind pattern (the letters u, p and
any following spaces, removed). -/
def reSubUp (l : List Char) : List Char := reSubUpF l.length l

namespace Ncaab

/-- Embedding of the module-level cleanup helper of
src/sportsipy/ncaab/player.py: remove every occurrence of the percent sign,
the comma, then the plus sign; a None input raises AttributeError on the
first replace, which the helper catches by returning the empty string. -/
def cleanup : Option String → String
  | none => ""
  | some s => removeChar '+' (removeChar ',' (removeChar '%' s))

/-- Core of the int property decorator of src/sportsipy/ncaab/player.py
applied to one raw token: cleanup then int(), with ValueError caught and
collapsed to None. -/
def coerceIntToken (raw : Option String) : Option Int := pyParseInt (cleanup raw)

/-- Core of the float property decorator of src/sportsipy/ncaab/player.py
applied to one raw token: cleanup then float(), with ValueError caught and
collapsed to None. -/
def coerceFloatToken (raw : Option String) : Option Rat := pyParseFloat (cleanup raw)

/-- Full wrapper of the int property decorator: index into the per-season
stats list (an out-of-range index raises IndexError, which the wrapper does
not catch), then coerce the selected token. -/
def intPropRead (stats : List (Option String)) (index : Nat) : Except PyErr (Option Int) :=
  match stats.get? index with
  | none => .error .indexError
  | some raw => .ok (coerceIntToken raw)

/-- Full wrapper of the float property decorator, analogous to
`Ncaab.intPropRead`. -/
def floatPropRead (stats : List (Option String)) (index : Nat) : Except PyErr (Option Rat) :=
  match stats.get? index with
  | none => .error .indexError
  | some raw => .ok (coerceFloatToken raw)

end Ncaab

namespace MlbTeams

/-- Modelled from the spec: the ELEMENT index table (TEAM_ELEMENT of
src/sportsipy/mlb/constants.py, which is not under src/) mapping a compound
field name to the sub-token position it reads, with default position 0 for
unregistered names; the loss-side accessors of a "W-L" record read
position 1. -/
def TEAM_ELEMENT (field : String) : Nat :=
  if field = "losses" ∨ field = "home_losses" ∨ field = "away_losses" then 1 else 0

/-- Embedding of mlb_int_property_decorator of src/sportsipy/mlb/teams.py
applied to one raw compound value: split on the dash (AttributeError for a
None value is caught and collapses to None), index by the registered
position (IndexError caught), then int() (ValueError caught). -/
def mlbIntCoerce (value : Option String) (field : String) : Option Int :=
  match value with
  | none => none
  | some s =>
    match (splitOnChar '-' s).get? (TEAM_ELEMENT field) with
    | none => none
    | some tok => pyParseInt tok

/-- The slice of the Team raw record of src/sportsipy/mlb/teams.py that the
claims read. -/
structure Team where
  _abbreviation : Option String
  _home_record : Option String
  deriving DecidableEq, Repr

/-- Embedding of the abbreviation property: returns the raw value. -/
def Team.abbreviation (t : Team) : Option String := t._abbreviation

/-- Embedding of the home_record property: returns the raw value. -/
def Team.home_record (t : Team) : Option String := t._home_record

/-- Embedding of the home_wins accessor: the compound home record coerced at
the sub-token position registered for home_wins. -/
def Team.home_wins (t : Team) : Option Int := mlbIntCoerce t._home_record "home_wins"

/-- Embedding of the home_losses accessor: the same raw field coerced at the
sub-token position registered for home_losses. -/
def Team.home_losses (t : Team) : Option Int := mlbIntCoerce t._home_record "home_losses"

/-- Does the abbreviation of the team match the query, ignoring case?  (False when
the abbreviation is absent.) -/
def matchesAbbr (q : String) (t : Team) : Bool :=
  match t._abbreviation with
  | none => false
  | some a => upperStr a = upperStr q

/-- Embedding of Teams getitem of src/sportsipy/mlb/teams.py: linear scan
comparing upper-cased abbreviations, first match returned, ValueError when no
team matches; reading the abbreviation of a team that has none raises
AttributeError (upper on None). -/
def teamsGetitem : List Team → String → Except PyErr Team
  | [], _ => .error .valueError
  | t :: rest, q =>
    match t._abbreviation with
    | none => .error .attributeError
    | some a => if upperStr a = upperStr q then .ok t else teamsGetitem rest q

end MlbTeams

namespace MlbSched

/-- Modelled from the spec: the HOME and AWAY location constants of
sportsreference.constants (not under src/). -/
inductive Loc where
  | HOME
  | AWAY
  deriving DecidableEq, Repr

/-- Modelled from the spec: the WIN and LOSS result constants of
sportsreference.constants (not under src/). -/
inductive Outcome where
  | WIN
  | LOSS
  deriving DecidableEq, Repr

/-- Modelled from the spec: the DAY and NIGHT constants of the mlb constants
module (not under src/). -/
inductive DayNight where
  | DAY
  | NIGHT
  deriving DecidableEq, Repr

/-- The Game raw record of src/sportsreference/mlb/schedule.py: one raw
attribute per scheduled field (each a string or None after parsing), plus the
year supplied at construction.  The boxscore attribute, which no claim reads,
is omitted. -/
structure Game where
  _game : Option String
  _date : Option String
  _location : Option String
  _opponent_abbr : Option String
  _result : Option String
  _runs_scored : Option String
  _runs_allowed : Option String
  _innings : Option String
  _record : Option String
  _rank : Option String
  _games_behind : Option String
  _winner : Option String
  _loser : Option String
  _save : Option String
  _game_duration : Option String
  _day_or_night : Option String
  _attendance : Option String
  _streak : Option String
  _year : String
  deriving DecidableEq, Repr

/-- Embedding of Game construction (init plus parse_game_data): every raw
field is populated from the document fragment, modelled as a map from short
field name to extracted raw text.  The field extraction helper lives in a
utils module outside src/; per the spec it returns the raw text, or None when
the locator yields no match, so a fragment is a function into Option String.
Construction itself never fails. -/
def mkGame (frag : String → Option String) (year : String) : Game :=
  { _game := frag "game", _date := frag "date", _location := frag "location",
    _opponent_abbr := frag "opponent_abbr", _result := frag "result",
    _runs_scored := frag "runs_scored", _runs_allowed := frag "runs_allowed",
    _innings := frag "innings", _record := frag "record", _rank := frag "rank",
    _games_behind := frag "games_behind", _winner := frag "winner",
    _loser := frag "loser", _save := frag "save",
    _game_duration := frag "game_duration", _day_or_night := frag "day_or_night",
    _attendance := frag "attendance", _streak := frag "streak", _year := year }

/-- Embedding of the game accessor: int on the raw value; int(None) raises
TypeError, int on a malformed string raises ValueError, neither is caught. -/
def Game.game (g : Game) : Except PyErr Int :=
  match g._game with
  | none => .error .typeError
  | some s => exceptOfOption .valueError (pyParseInt s)

/-- Embedding of the date accessor: returns the raw value. -/
def Game.date (g : Game) : Option String := g._date

/-- Embedding of the location accessor: the at-sign marker means AWAY, any
other value (absent included, since None compares unequal) means HOME. -/
def Game.location (g : Game) : Loc :=
  if g._location = some "@" then .AWAY else .HOME

/-- Embedding of the opponent_abbr accessor: returns the raw value. -/
def Game.opponent_abbr (g : Game) : Option String := g._opponent_abbr

/-- Embedding of the result accessor: lower() on the raw value (AttributeError
on None), then the w marker means WIN and everything else means LOSS. -/
def Game.result (g : Game) : Except PyErr Outcome :=
  match g._result with
  | none => .error .attributeError
  | some s => .ok (if lowerStr s = "w" then .WIN else .LOSS)

/-- Embedding of the runs_scored accessor: int on the raw value. -/
def Game.runs_scored (g : Game) : Except PyErr Int :=
  match g._runs_scored with
  | none => .error .typeError
  | some s => exceptOfOption .valueError (pyParseInt s)

/-- Embedding of the runs_allowed accessor: int on the raw value. -/
def Game.runs_allowed (g : Game) : Except PyErr Int :=
  match g._runs_allowed with
  | none => .error .typeError
  | some s => exceptOfOption .valueError (pyParseInt s)

/-- Embedding of the innings accessor: a falsy raw value (None or the empty
string) defaults to 9, otherwise int on the raw value. -/
def Game.innings (g : Game) : Except PyErr Int :=
  match g._innings with
  | none => .ok 9
  | some s => if s = "" then .ok 9 else exceptOfOption .valueError (pyParseInt s)

/-- Embedding of the record accessor: returns the raw value. -/
def Game.record (g : Game) : Option String := g._record

/-- Embedding of the rank accessor: int on the raw value. -/
def Game.rank (g : Game) : Except PyErr Int :=
  match g._rank with
  | none => .error .typeError
  | some s => exceptOfOption .valueError (pyParseInt s)

/-- Embedding of the games_behind accessor: lower() on the raw value
(AttributeError on None); if it contains the up marker, remove each
occurrence of the marker and following spaces and negate the float of the
remainder; otherwise if it contains the tied marker return 0.0; otherwise
float of the raw value. -/
def Game.games_behind (g : Game) : Except PyErr Rat :=
  match g._games_behind with
  | none => .error .attributeError
  | some s =>
    if hasSubstr "up" (lowerStr s) then
      match pyParseFloat (String.mk (reSubUp (lowerStr s).data)) with
      | some x => .ok (x * (-1))
      | none => .error .valueError
    else if hasSubstr "tied" (lowerStr s) then .ok 0
    else exceptOfOption .valueError (pyParseFloat s)

/-- Embedding of the winner accessor: returns the raw value. -/
def Game.winner (g : Game) : Option String := g._winner

/-- Embedding of the loser accessor: returns the raw value. -/
def Game.loser (g : Game) : Option String := g._loser

/-- Embedding of the save accessor: the empty string becomes None, everything
else is returned raw. -/
def Game.save (g : Game) : Option String :=
  if g._save = some "" then none else g._save

/-- Embedding of the game_duration accessor: returns the raw value. -/
def Game.game_duration (g : Game) : Option String := g._game_duration

/-- Embedding of the day_or_night accessor: lower() on the raw value
(AttributeError on None), the n marker means NIGHT, everything else DAY. -/
def Game.day_or_night (g : Game) : Except PyErr DayNight :=
  match g._day_or_night with
  | none => .error .attributeError
  | some s => .ok (if lowerStr s = "n" then .NIGHT else .DAY)

/-- Embedding of the attendance accessor: replace commas (AttributeError on
None), then int (ValueError on malformed text); neither is caught. -/
def Game.attendance (g : Game) : Except PyErr Int :=
  match g._attendance with
  | none => .error .attributeError
  | some s => exceptOfOption .valueError (pyParseInt (removeChar ',' s))

/-- Embedding of the streak accessor: returns the raw value. -/
def Game.streak (g : Game) : Option String := g._streak

end MlbSched

namespace MlbSched

/-- The seven weekday names the strptime directive for a full weekday name
accepts (matching is case-insensitive). -/
def weekdayNames : List String :=
  ["monday", "tuesday", "wednesday", "thursday", "friday", "saturday", "sunday"]

/-- Month number of a lower-cased month abbreviation, as accepted by the
strptime abbreviated-month directive. -/
def monthNum (m : String) : Option Nat :=
  (["jan", "feb", "mar", "apr", "may", "jun",
    "jul", "aug", "sep", "oct", "nov", "dec"].findIdx? (fun x => x == m)).map (· + 1)

/-- Gregorian leap-year test, as used by the datetime day-of-month check. -/
def isLeap (y : Nat) : Bool := (y % 4 == 0 && y % 100 != 0) || y % 400 == 0

/-- Number of days in a month, as validated by the datetime constructor. -/
def daysInMonth (y m : Nat) : Nat :=
  if m = 2 then (if isLeap y then 29 else 28)
  else if m = 4 ∨ m = 6 ∨ m = 9 ∨ m = 11 then 30
  else 31

/-- A day-of-month field: one or two decimal digits. -/
def parseDayField (cs : List Char) : Option Nat :=
  if (cs.length = 1 ∨ cs.length = 2) ∧ cs.all Char.isDigit then some (digitsVal cs) else none

/-- A four-digit year field. -/
def parseYearField (cs : List Char) : Option Nat :=
  if cs.length = 4 ∧ cs.all Char.isDigit then some (digitsVal cs) else none

/-- Model of datetime.strptime with the schedule format (full weekday name,
comma, month abbreviation, day of month, four-digit year, space separated):
returns the calendar date (year, month, day) or None for a ValueError.  The
weekday name must be valid but is not checked against the date, matching
strptime; the day of month is validated against the month length, matching
the datetime constructor. -/
def strptimeSchedule (s : String) : Option (Nat × Nat × Nat) :=
  match splitOnChar ' ' s with
  | [wd, mon, day, yr] => do
    guard (wd.data.getLast? = some ',')
    guard (weekdayNames.contains (lowerStr (String.mk wd.data.dropLast)))
    let m ← monthNum (lowerStr mon)
    let d ← parseDayField day.data
    let y ← parseYearField yr.data
    guard (1 ≤ y)
    guard (1 ≤ d ∧ d ≤ daysInMonth y m)
    pure (y, m, d)
  | _ => none

/-- Embedding of the datetime accessor: format the raw date (None prints as
the four-letter word None) with the stored year, then strptime; a parse
failure raises ValueError.  Only the calendar date is represented, since the
format captures no time of day. -/
def Game.datetime (g : Game) : Except PyErr (Nat × Nat × Nat) :=
  let ds := (match g._date with | none => "None" | some s => s) ++ " " ++ g._year
  exceptOfOption .valueError (strptimeSchedule ds)

/-- A Python datetime value as used by the schedule lookup: calendar date
plus a time of day (the lookup reads only the calendar date). -/
structure PyDateTime where
  year : Nat
  month : Nat
  day : Nat
  hour : Nat
  minute : Nat
  deriving DecidableEq, Repr

/-- Embedding of the Schedule call lookup of
src/sportsreference/mlb/schedule.py: scan games in order, return the first
whose parsed date has the year, month and day of the query; a game whose date
fails to parse raises that parse error; ValueError when no game matches. -/
def scheduleCall : List Game → PyDateTime → Except PyErr Game
  | [], _ => .error .valueError
  | g :: rest, q =>
    match Game.datetime g with
    | .error e => .error e
    | .ok t => if t = (q.year, q.month, q.day) then .ok g else scheduleCall rest q

/-- A Game parsed from a fragment with every field absent (the all-None raw
record), for concrete instances. -/
def baseGame : Game := mkGame (fun _ => none) "2019"

/-- Reading the attendance accessor as a state transition, to express that a
read returns a value and leaves the entity unchanged. -/
def readAttendance (g : Game) : Except PyErr Int × Game := (Game.attendance g, g)

end MlbSched

theorem mem_of_mem_dropWhile {α : Type} {p : α → Bool} {l : List α} {x : α}
    (hx : x ∈ l.dropWhile p) : x ∈ l := by
  induction l with
  | nil => simp [List.dropWhile] at hx
  | cons c rest ih =>
    rw [List.dropWhile] at hx
    by_cases h : p c
    · simp only [h] at hx
      exact List.mem_cons_of_mem _ (ih hx)
    · simp only [Bool.not_eq_true] at h
      simp only [h] at hx
      exact hx

theorem mem_of_mem_pyStrip {l : List Char} {x : Char} (hx : x ∈ pyStrip l) : x ∈ l := by
  unfold pyStrip at hx
  rw [List.mem_reverse] at hx
  have h1 := mem_of_mem_dropWhile hx
  rw [List.mem_reverse] at h1
  exact mem_of_mem_dropWhile h1

theorem mem_of_mem_breakAt_fst {p : Char → Bool} {l : List Char} {x : Char}
    (hx : x ∈ (breakAt p l).1) : x ∈ l := by
  induction l with
  | nil => simp [breakAt] at hx
  | cons c rest ih =>
    rw [breakAt] at hx
    by_cases h : p c
    · simp [h] at hx
    · simp only [h, if_false, Bool.false_eq_true, ite_false] at hx
      rcases List.mem_cons.mp hx with h1 | h1
      · exact h1 ▸ List.mem_cons_self _ _
      · exact List.mem_cons_of_mem _ (ih h1)

theorem mem_of_mem_breakAt_snd {p : Char → Bool} {l t : List Char} {x : Char}
    (ht : (breakAt p l).2 = some t) (hx : x ∈ t) : x ∈ l := by
  induction l with
  | nil => simp [breakAt] at ht
  | cons c rest ih =>
    rw [breakAt] at ht
    by_cases h : p c
    · simp only [h, if_true] at ht
      cases ht
      exact List.mem_cons_of_mem _ hx
    · simp only [h, if_false, Bool.false_eq_true, ite_false] at ht
      exact List.mem_cons_of_mem _ (ih ht)

theorem not_all_digits_of_no_digit {cs : List Char}
    (h : ∀ c ∈ cs, c.isDigit = false) (hne : cs ≠ []) :
    ¬(cs.all Char.isDigit = true) := by
  intro hall
  match cs, hne with
  | d :: ds, _ =>
    have hd := List.all_eq_true.mp hall d (List.mem_cons_self _ _)
    rw [h d (List.mem_cons_self _ _)] at hd
    exact Bool.false_ne_true hd

theorem intFromChars_no_digit {cs : List Char}
    (h : ∀ c ∈ cs, c.isDigit = false) : intFromChars cs = none := by
  match cs with
  | [] => rfl
  | c :: rest =>
    have hc := h c (List.mem_cons_self _ _)
    rcases rest with _ | ⟨d, ds⟩
    · simp [intFromChars, hc]
    · have hd := h d (by simp)
      simp [intFromChars, List.all_cons, hc, hd]

theorem parseMant_no_digit {cs : List Char}
    (h : ∀ c ∈ cs, c.isDigit = false) : parseMant cs = none := by
  cases hr : (breakAt (fun c => c == '.') cs).2 with
  | none =>
    simp only [parseMant, hr]
    rcases cs with _ | ⟨d, ds⟩
    · simp
    · have hd := h d (by simp)
      simp [List.all_cons, hd]
  | some fp =>
    simp only [parseMant, hr]
    refine if_neg ?_
    rintro ⟨hall1, hall2, hne⟩
    rcases hne with hne | hne
    · match hl : (breakAt (fun c => c == '.') cs).1, hne with
      | d :: ds, _ =>
        have hd := List.all_eq_true.mp (hl ▸ hall1) d (List.mem_cons_self _ _)
        have hmem : d ∈ cs := mem_of_mem_breakAt_fst (hl ▸ List.mem_cons_self d ds)
        rw [h d hmem] at hd
        exact Bool.false_ne_true hd
    · match fp, hne with
      | d :: ds, _ =>
        have hd := List.all_eq_true.mp hall2 d (List.mem_cons_self _ _)
        have hmem : d ∈ cs := mem_of_mem_breakAt_snd hr (List.mem_cons_self d ds)
        rw [h d hmem] at hd
        exact Bool.false_ne_true hd

theorem floatBody_no_digit {cs : List Char}
    (h : ∀ c ∈ cs, c.isDigit = false) : floatBody cs = none := by
  have hm : parseMant (breakAt (fun c => c == 'e' || c == 'E') cs).1 = none :=
    parseMant_no_digit (fun x hx => h x (mem_of_mem_breakAt_fst hx))
  cases hr : (breakAt (fun c => c == 'e' || c == 'E') cs).2 <;>
    simp [floatBody, hm, hr]

theorem floatFromChars_no_digit {cs : List Char}
    (h : ∀ c ∈ cs, c.isDigit = false) : floatFromChars cs = none := by
  match cs with
  | [] => rfl
  | c :: rest =>
    have htail : floatBody rest = none :=
      floatBody_no_digit (fun x hx => h x (List.mem_cons_of_mem _ hx))
    have hall : floatBody (c :: rest) = none := floatBody_no_digit h
    simp only [floatFromChars, List.tail_cons]
    split
    · rw [htail]; rfl
    · split
      · exact htail
      · exact hall

theorem removeCharL_eq_filter (c : Char) (l : List Char) :
    removeCharL c l = l.filter (fun x => !(x == c)) := by
  induction l with
  | nil => rfl
  | cons x xs ih =>
    by_cases h : x = c <;> simp [removeCharL, List.filter_cons, h, ih]

theorem cleanup_data_eq_filter (s : String) :
    (Ncaab.cleanup (some s)).data =
      s.data.filter (fun c => !(c == '%') && !(c == ',') && !(c == '+')) := by
  show removeCharL '+' (removeCharL ',' (removeCharL '%' s.data)) = _
  rw [removeCharL_eq_filter, removeCharL_eq_filter, removeCharL_eq_filter,
    List.filter_filter, List.filter_filter]
  refine List.filter_congr ?_
  intro a _
  cases h1 : a == '%' <;> cases h2 : a == ',' <;> cases h3 : a == '+' <;> simp [h1, h2, h3]

theorem mem_of_mem_cleanup {s : String} {x : Char}
    (hx : x ∈ (Ncaab.cleanup (some s)).data) : x ∈ s.data := by
  rw [cleanup_data_eq_filter] at hx
  exact (List.mem_filter.mp hx).1

theorem coerceIntToken_no_digit {s : String}
    (h : ∀ c ∈ s.data, c.isDigit = false) : Ncaab.coerceIntToken (some s) = none := by
  unfold Ncaab.coerceIntToken pyParseInt
  exact intFromChars_no_digit
    (fun x hx => h x (mem_of_mem_cleanup (mem_of_mem_pyStrip hx)))

theorem coerceFloatToken_no_digit {s : String}
    (h : ∀ c ∈ s.data, c.isDigit = false) : Ncaab.coerceFloatToken (some s) = none := by
  unfold Ncaab.coerceFloatToken pyParseFloat
  exact floatFromChars_no_digit
    (fun x hx => h x (mem_of_mem_cleanup (mem_of_mem_pyStrip hx)))

theorem teamsGetitem_congr (teams : List MlbTeams.Team) (q r : String)
    (h : upperStr q = upperStr r) :
    MlbTeams.teamsGetitem teams q = MlbTeams.teamsGetitem teams r := by
  induction teams with
  | nil => rfl
  | cons t rest ih =>
    cases habb : t._abbreviation with
    | none => simp [MlbTeams.teamsGetitem, habb]
    | some a => simp only [MlbTeams.teamsGetitem, habb, h, ih]

theorem teamsGetitem_not_found (teams : List MlbTeams.Team) (q : String) :
    (∀ t ∈ teams, t._abbreviation.isSome = true) →
    (∀ t ∈ teams, MlbTeams.matchesAbbr q t = false) →
    MlbTeams.teamsGetitem teams q = .error .valueError := by
  induction teams with
  | nil => intro _ _; rfl
  | cons t rest ih =>
    intro hsome hno
    have h1 := hsome t (List.mem_cons_self _ _)
    have h2 := hno t (List.mem_cons_self _ _)
    cases habb : t._abbreviation with
    | none => rw [habb] at h1; simp at h1
    | some a =>
      have hne : ¬(upperStr a = upperStr q) := by
        simp [MlbTeams.matchesAbbr, habb] at h2
        exact h2
      simp only [MlbTeams.teamsGetitem, habb, if_neg hne]
      exact ih (fun u hu => hsome u (List.mem_cons_of_mem _ hu))
        (fun u hu => hno u (List.mem_cons_of_mem _ hu))

theorem teamsGetitem_found (teams : List MlbTeams.Team) (q : String)
    (t : MlbTeams.Team) :
    MlbTeams.teamsGetitem teams q = .ok t →
    ∃ pre post, teams = pre ++ t :: post ∧ MlbTeams.matchesAbbr q t = true ∧
      ∀ u ∈ pre, MlbTeams.matchesAbbr q u = false := by
  induction teams with
  | nil => intro h; exact Except.noConfusion h
  | cons u rest ih =>
    intro h
    cases habb : u._abbreviation with
    | none =>
      simp only [MlbTeams.teamsGetitem, habb] at h
      exact Except.noConfusion h
    | some a =>
      simp only [MlbTeams.teamsGetitem, habb] at h
      by_cases hm : upperStr a = upperStr q
      · rw [if_pos hm] at h
        injection h with h
        subst h
        exact ⟨[], rest, rfl, by simp [MlbTeams.matchesAbbr, habb, hm], by simp⟩
      · rw [if_neg hm] at h
        obtain ⟨pre, post, heq, hmt, hpre⟩ := ih h
        refine ⟨u :: pre, post, by simp [heq], hmt, ?_⟩
        intro v hv
        rcases List.mem_cons.mp hv with hv | hv
        · subst hv; simp [MlbTeams.matchesAbbr, habb, hm]
        · exact hpre v hv

theorem scheduleCall_ignores_time (games : List MlbSched.Game)
    (y mo d h1 mi1 h2 mi2 : Nat) :
    MlbSched.scheduleCall games ⟨y, mo, d, h1, mi1⟩ =
      MlbSched.scheduleCall games ⟨y, mo, d, h2, mi2⟩ := by
  induction games with
  | nil => rfl
  | cons g rest ih =>
    cases hdt : MlbSched.Game.datetime g with
    | error e => simp [MlbSched.scheduleCall, hdt]
    | ok t => simp [MlbSched.scheduleCall, hdt, ih]

theorem scheduleCall_not_found (games : List MlbSched.Game)
    (y mo d hh mi : Nat) :
    (∀ g ∈ games, ∃ t, MlbSched.Game.datetime g = .ok t ∧ t ≠ (y, mo, d)) →
    MlbSched.scheduleCall games ⟨y, mo, d, hh, mi⟩ = .error .valueError := by
  induction games with
  | nil => intro _; rfl
  | cons g rest ih =>
    intro hall
    obtain ⟨t, hdt, hne⟩ := hall g (List.mem_cons_self _ _)
    simp only [MlbSched.scheduleCall, hdt, if_neg hne]
    exact ih (fun u hu => hall u (List.mem_cons_of_mem _ hu))

theorem scheduleCall_found (games : List MlbSched.Game)
    (y mo d hh mi : Nat) (g : MlbSched.Game) :
    MlbSched.scheduleCall games ⟨y, mo, d, hh, mi⟩ = .ok g →
    ∃ pre post, games = pre ++ g :: post ∧
      MlbSched.Game.datetime g = .ok (y, mo, d) ∧
      ∀ u ∈ pre, ∃ t, MlbSched.Game.datetime u = .ok t ∧ t ≠ (y, mo, d) := by
  induction games with
  | nil => intro h; exact Except.noConfusion h
  | cons u rest ih =>
    intro h
    cases hdt : MlbSched.Game.datetime u with
    | error e =>
      simp only [MlbSched.scheduleCall, hdt] at h
      exact Except.noConfusion h
    | ok t =>
      simp only [MlbSched.scheduleCall, hdt] at h
      by_cases hm : t = (y, mo, d)
      · rw [if_pos hm] at h
        injection h with h
        subst h
        exact ⟨[], rest, rfl, hm ▸ hdt, by simp⟩
      · rw [if_neg hm] at h
        obtain ⟨pre, post, heq, hdg, hpre⟩ := ih h
        refine ⟨u :: pre, post, by simp [heq], hdg, ?_⟩
        intro v hv
        rcases List.mem_cons.mp hv with hv | hv
        · subst hv; exact ⟨t, hdt, hm⟩
        · exact hpre v hv

/-- C1: for a raw token that is None or non-numeric text (here: containing no
decimal digit at all), the int and float coercion wrappers of the ncaab player
module return None; both wrappers are total functions into Option, so no
error condition escapes as an exception. -/
theorem c1_coercion_collapses_to_none (raw : Option String) :
    (raw = none →
      Ncaab.coerceIntToken raw = none ∧ Ncaab.coerceFloatToken raw = none) ∧
    (∀ s, raw = some s → (∀ c ∈ s.data, c.isDigit = false) →
      Ncaab.coerceIntToken raw = none ∧ Ncaab.coerceFloatToken raw = none) := by
  constructor
  · rintro rfl
    exact ⟨rfl, rfl⟩
  · rintro s rfl hnd
    exact ⟨coerceIntToken_no_digit hnd, coerceFloatToken_no_digit hnd⟩

/-- Witness for C1 at concrete inputs: the absent token and a digit-free
token both coerce to None. -/
theorem c1_coercion_collapses_to_none_witness :
    Ncaab.coerceIntToken none = none ∧ Ncaab.coerceFloatToken (some "N/A") = none :=
  ⟨((c1_coercion_collapses_to_none none).1 rfl).1,
   ((c1_coercion_collapses_to_none (some "N/A")).2 "N/A" rfl (by decide)).2⟩

/-- C2 counterexample: a Game constructed from a fragment with every field
absent stores None everywhere, and reading the game accessor raises TypeError
while reading the attendance accessor raises AttributeError, so reading every
declared typed accessor does not avoid exceptions. -/
theorem c2_read_raises_counterexample :
    MlbSched.Game.game (MlbSched.mkGame (fun _ => none) "2019") =
      .error .typeError ∧
    MlbSched.Game.attendance (MlbSched.mkGame (fun _ => none) "2019") =
      .error .attributeError :=
  ⟨rfl, rfl⟩

/-- C2 amended: construction from a document fragment never fails and stores
absent fields as None; accessors are pure projections of the stored record
(reading leaves the entity unchanged and repeated reads agree); plain string
accessors never raise, but typed accessors that coerce (game, attendance,
result) raise when the raw field they read is absent. -/
theorem c2_construction_total_reads_pure (frag : String → Option String) (yr : String) :
    ((MlbSched.mkGame frag yr)._game = frag "game" ∧
     (MlbSched.mkGame frag yr)._date = frag "date" ∧
     (MlbSched.mkGame frag yr)._attendance = frag "attendance") ∧
    (frag "game" = none →
      MlbSched.Game.game (MlbSched.mkGame frag yr) = .error .typeError) ∧
    (frag "attendance" = none →
      MlbSched.Game.attendance (MlbSched.mkGame frag yr) = .error .attributeError) ∧
    (frag "result" = none →
      MlbSched.Game.result (MlbSched.mkGame frag yr) = .error .attributeError) ∧
    (MlbSched.Game.date (MlbSched.mkGame frag yr) = frag "date" ∧
     MlbSched.Game.record (MlbSched.mkGame frag yr) = frag "record" ∧
     MlbSched.Game.winner (MlbSched.mkGame frag yr) = frag "winner" ∧
     MlbSched.Game.streak (MlbSched.mkGame frag yr) = frag "streak") ∧
    (∀ g : MlbSched.Game, (MlbSched.readAttendance g).2 = g ∧
      (MlbSched.readAttendance ((MlbSched.readAttendance g).2)).1 =
        (MlbSched.readAttendance g).1) := by
  refine ⟨⟨rfl, rfl, rfl⟩, ?_, ?_, ?_, ⟨rfl, rfl, rfl, rfl⟩, fun g => ⟨rfl, rfl⟩⟩
  · intro h; simp [MlbSched.Game.game, MlbSched.mkGame, h]
  · intro h; simp [MlbSched.Game.attendance, MlbSched.mkGame, h]
  · intro h; simp [MlbSched.Game.result, MlbSched.mkGame, h]

/-- Witness for the amended C2 at a concrete all-absent fragment. -/
theorem c2_construction_total_reads_pure_witness :
    MlbSched.Game.attendance (MlbSched.mkGame (fun _ => none) "2019") =
      .error .attributeError ∧
    MlbSched.Game.date (MlbSched.mkGame (fun _ => none) "2019") = none :=
  ⟨(c2_construction_total_reads_pure (fun _ => none) "2019").2.2.1 rfl,
   (c2_construction_total_reads_pure (fun _ => none) "2019").2.2.2.2.1.1⟩

/-- C3: the compound-record coercion of the mlb teams module splits the raw
value on the dash, indexes by the position registered for the field name
(default 0 for unregistered names), coerces that sub-token with int(), and
returns None when the combined value is absent, the split fails, or the index
is out of range; on the compound record strings of the spec it returns the
expected wins and losses. -/
theorem c3_sub_token_coercion (v : Option String) (f : String) :
    (v = none → MlbTeams.mlbIntCoerce v f = none) ∧
    (∀ s, v = some s → (splitOnChar '-' s).length ≤ MlbTeams.TEAM_ELEMENT f →
        MlbTeams.mlbIntCoerce v f = none) ∧
    (∀ s tok, v = some s →
        (splitOnChar '-' s).get? (MlbTeams.TEAM_ELEMENT f) = some tok →
        MlbTeams.mlbIntCoerce v f = pyParseInt tok) ∧
    (f ≠ "losses" ∧ f ≠ "home_losses" ∧ f ≠ "away_losses" →
        MlbTeams.TEAM_ELEMENT f = 0) ∧
    MlbTeams.mlbIntCoerce (some "81-81") "wins" = some 81 ∧
    MlbTeams.mlbIntCoerce (some "81-81") "losses" = some 81 ∧
    MlbTeams.mlbIntCoerce (some "92-70") "wins" = some 92 ∧
    MlbTeams.mlbIntCoerce (some "92-70") "losses" = some 70 := by
  refine ⟨?_, ?_, ?_, ?_, rfl, rfl, rfl, rfl⟩
  · rintro rfl; rfl
  · rintro s rfl hlen
    simp only [MlbTeams.mlbIntCoerce]
    rw [List.get?_eq_none.mpr hlen]
  · rintro s tok rfl hget
    simp only [MlbTeams.mlbIntCoerce, hget]
  · rintro ⟨h1, h2, h3⟩
    simp [MlbTeams.TEAM_ELEMENT, h1, h2, h3]

/-- Witness for C3 at concrete inputs: an absent combined value and a
one-token record read at the loss position (index out of range) both coerce
to None. -/
theorem c3_sub_token_coercion_witness :
    MlbTeams.mlbIntCoerce none "wins" = none ∧
    MlbTeams.mlbIntCoerce (some "50") "home_losses" = none :=
  ⟨(c3_sub_token_coercion none "wins").1 rfl,
   (c3_sub_token_coercion (some "50") "home_losses").2.1 "50" rfl (by decide)⟩

/-- C4 counterexample: an unrecognized result marker does not default to the
WIN constant; the raw marker T yields LOSS, refuting the claimed fail-open
bias of the result accessor. -/
theorem c4_result_default_counterexample :
    MlbSched.Game.result { MlbSched.baseGame with _result := some "T" } =
      .ok MlbSched.Outcome.LOSS ∧
    MlbSched.Outcome.LOSS ≠ MlbSched.Outcome.WIN :=
  ⟨rfl, by decide⟩

/-- C4 amended: the result accessor is a table-driven 1:1 symbol
substitution in which a raw W marker (case-insensitive) yields WIN and every
other raw marker, the L marker included, yields LOSS (fail-closed to the
LOSS constant). -/
theorem c4_result_substitution (g : MlbSched.Game) (s : String)
    (h : g._result = some s) :
    (lowerStr s = "w" → MlbSched.Game.result g = .ok .WIN) ∧
    (lowerStr s ≠ "w" → MlbSched.Game.result g = .ok .LOSS) := by
  constructor <;> intro h2 <;> simp [MlbSched.Game.result, h, h2]

/-- Witness for the amended C4 at concrete markers: upper- and lower-case W
yield WIN, the L marker yields LOSS. -/
theorem c4_result_substitution_witness :
    MlbSched.Game.result { MlbSched.baseGame with _result := some "W" } = .ok .WIN ∧
    MlbSched.Game.result { MlbSched.baseGame with _result := some "w" } = .ok .WIN ∧
    MlbSched.Game.result { MlbSched.baseGame with _result := some "L" } = .ok .LOSS :=
  ⟨(c4_result_substitution { MlbSched.baseGame with _result := some "W" } "W" rfl).1
      (by decide),
   (c4_result_substitution { MlbSched.baseGame with _result := some "w" } "w" rfl).1
      (by decide),
   (c4_result_substitution { MlbSched.baseGame with _result := some "L" } "L" rfl).2
      (by decide)⟩

/-- C5 counterexample: the up branch is tested before the tied branch, so raw
text containing the tied marker together with an up marker does not yield 0.0
as claimed; it takes the up branch and raises ValueError on the leftover
text. -/
theorem c5_games_behind_counterexample :
    hasSubstr "tied" (lowerStr "Tied up 1") = true ∧
    MlbSched.Game.games_behind
        { MlbSched.baseGame with _games_behind := some "Tied up 1" } =
      .error .valueError :=
  ⟨rfl, rfl⟩

/-- C5 amended: the up marker takes precedence: raw text containing the up
marker yields the negated float of the text with each marker occurrence (and
following spaces) removed; otherwise text containing the tied marker yields
0.0; otherwise the raw text yields its direct float value; the three spec
example inputs evaluate accordingly. -/
theorem c5_games_behind_convention (g : MlbSched.Game) (s : String)
    (h : g._games_behind = some s) :
    (∀ x : Rat, hasSubstr "up" (lowerStr s) = true →
        pyParseFloat (String.mk (reSubUp (lowerStr s).data)) = some x →
        MlbSched.Game.games_behind g = .ok (-x)) ∧
    (hasSubstr "up" (lowerStr s) = false → hasSubstr "tied" (lowerStr s) = true →
        MlbSched.Game.games_behind g = .ok 0) ∧
    (hasSubstr "up" (lowerStr s) = false → hasSubstr "tied" (lowerStr s) = false →
        MlbSched.Game.games_behind g = exceptOfOption .valueError (pyParseFloat s)) ∧
    MlbSched.Game.games_behind
        { MlbSched.baseGame with _games_behind := some "Tied" } = .ok 0 ∧
    MlbSched.Game.games_behind
        { MlbSched.baseGame with _games_behind := some "Up 2.5" } =
      .ok (-(5 / 2 : Rat)) ∧
    MlbSched.Game.games_behind
        { MlbSched.baseGame with _games_behind := some "3.0" } = .ok 3 := by
  refine ⟨?_, ?_, ?_, rfl, ?_, ?_⟩
  · intro x hup hpf
    simp only [MlbSched.Game.games_behind, h, hup, if_true, hpf]
    rw [mul_neg_one]
  · intro hup htied
    simp [MlbSched.Game.games_behind, h, hup, htied]
  · intro hup htied
    simp [MlbSched.Game.games_behind, h, hup, htied]
  · rw [show MlbSched.Game.games_behind
        { MlbSched.baseGame with _games_behind := some "Up 2.5" } =
        .ok (((2 : Rat) + (5 : Rat) / 10 ^ 1) * -1) from rfl]
    simp only [Except.ok.injEq]
    norm_num
  · rw [show MlbSched.Game.games_behind
        { MlbSched.baseGame with _games_behind := some "3.0" } =
        .ok ((3 : Rat) + (0 : Rat) / 10 ^ 1) from rfl]
    simp only [Except.ok.injEq]
    norm_num

/-- Witness for the amended C5 at concrete raw texts covering the three
branches. -/
theorem c5_games_behind_convention_witness :
    MlbSched.Game.games_behind
        { MlbSched.baseGame with _games_behind := some "up 4" } = .ok (-(4 : Rat)) ∧
    MlbSched.Game.games_behind
        { MlbSched.baseGame with _games_behind := some "still tied" } = .ok 0 ∧
    MlbSched.Game.games_behind
        { MlbSched.baseGame with _games_behind := some "1.5" } = .ok ((3 : Rat) / 2) :=
  ⟨(c5_games_behind_convention
      { MlbSched.baseGame with _games_behind := some "up 4" } "up 4" rfl).1
        4 rfl rfl,
   (c5_games_behind_convention
      { MlbSched.baseGame with _games_behind := some "still tied" } "still tied" rfl).2.1
        rfl rfl,
   ((c5_games_behind_convention
      { MlbSched.baseGame with _games_behind := some "1.5" } "1.5" rfl).2.2.1
        rfl rfl).trans (by
      rw [show pyParseFloat "1.5" = some ((1 : Rat) + (5 : Rat) / 10 ^ 1) from rfl]
      simp only [exceptOfOption, Except.ok.injEq]
      norm_num)⟩

/-- A two-team collection for concrete lookups. -/
def demoTeams : List MlbTeams.Team :=
  [⟨some "NYY", none⟩, ⟨some "HOU", some "50-31"⟩]

/-- C6: collection lookup by abbreviation is a case-insensitive linear scan;
queries with the same upper-casing give identical results, the entity
returned is the first whose abbreviation matches ignoring case, and a query
no team matches raises ValueError. -/
theorem c6_teams_lookup (teams : List MlbTeams.Team) (q r : String)
    (hqr : upperStr q = upperStr r) :
    MlbTeams.teamsGetitem teams q = MlbTeams.teamsGetitem teams r ∧
    ((∀ t ∈ teams, t._abbreviation.isSome = true) →
      (∀ t ∈ teams, MlbTeams.matchesAbbr q t = false) →
      MlbTeams.teamsGetitem teams q = .error .valueError) ∧
    (∀ t, MlbTeams.teamsGetitem teams q = .ok t →
      ∃ pre post, teams = pre ++ t :: post ∧ MlbTeams.matchesAbbr q t = true ∧
        ∀ u ∈ pre, MlbTeams.matchesAbbr q u = false) :=
  ⟨teamsGetitem_congr teams q r hqr,
   teamsGetitem_not_found teams q,
   fun t => teamsGetitem_found teams q t⟩

/-- Witness for C6 on a concrete collection: the lower- and upper-case
queries agree (and return the matching team), and an unknown abbreviation
raises ValueError. -/
theorem c6_teams_lookup_witness :
    MlbTeams.teamsGetitem demoTeams "hou" = MlbTeams.teamsGetitem demoTeams "HOU" ∧
    MlbTeams.teamsGetitem demoTeams "hou" = .ok ⟨some "HOU", some "50-31"⟩ ∧
    MlbTeams.teamsGetitem demoTeams "BOS" = .error .valueError :=
  ⟨(c6_teams_lookup demoTeams "hou" "HOU" (by decide)).1,
   rfl,
   (c6_teams_lookup demoTeams "BOS" "BOS" rfl).2.1 (by decide) (by decide)⟩

/-- A two-game schedule with parseable dates, for concrete lookups. -/
def demoSchedule : List MlbSched.Game :=
  [{ MlbSched.baseGame with _date := some "Monday, Apr 1" },
   { MlbSched.baseGame with _date := some "Tuesday, Apr 2" }]

/-- C7: schedule lookup by datetime compares only the year, month and day of
the query (any time of day gives the same result), returns the first game
whose parsed date matches that calendar date, and raises ValueError when no
game in the schedule matches. -/
theorem c7_schedule_date_lookup (games : List MlbSched.Game)
    (y mo d h1 mi1 h2 mi2 : Nat) :
    MlbSched.scheduleCall games ⟨y, mo, d, h1, mi1⟩ =
      MlbSched.scheduleCall games ⟨y, mo, d, h2, mi2⟩ ∧
    ((∀ g ∈ games, ∃ t, MlbSched.Game.datetime g = .ok t ∧ t ≠ (y, mo, d)) →
      MlbSched.scheduleCall games ⟨y, mo, d, h1, mi1⟩ = .error .valueError) ∧
    (∀ g, MlbSched.scheduleCall games ⟨y, mo, d, h1, mi1⟩ = .ok g →
      ∃ pre post, games = pre ++ g :: post ∧
        MlbSched.Game.datetime g = .ok (y, mo, d) ∧
        ∀ u ∈ pre, ∃ t, MlbSched.Game.datetime u = .ok t ∧ t ≠ (y, mo, d)) :=
  ⟨scheduleCall_ignores_time games y mo d h1 mi1 h2 mi2,
   scheduleCall_not_found games y mo d h1 mi1,
   fun g => scheduleCall_found games y mo d h1 mi1 g⟩

/-- Witness for C7 on a concrete schedule: a late-evening query and a
midnight query for April 2 agree and return the April 2 game (the second
entry, with the April 1 game scanned first), and a date with no game raises
ValueError. -/
theorem c7_schedule_date_lookup_witness :
    MlbSched.scheduleCall demoSchedule ⟨2019, 4, 2, 23, 59⟩ =
      MlbSched.scheduleCall demoSchedule ⟨2019, 4, 2, 0, 0⟩ ∧
    (∃ pre post,
      demoSchedule = pre ++ { MlbSched.baseGame with _date := some "Tuesday, Apr 2" } :: post ∧
      MlbSched.Game.datetime { MlbSched.baseGame with _date := some "Tuesday, Apr 2" } =
        .ok (2019, 4, 2) ∧
      ∀ u ∈ pre, ∃ t, MlbSched.Game.datetime u = .ok t ∧ t ≠ (2019, 4, 2)) ∧
    MlbSched.scheduleCall demoSchedule ⟨2019, 7, 4, 12, 0⟩ = .error .valueError :=
  ⟨(c7_schedule_date_lookup demoSchedule 2019 4 2 23 59 0 0).1,
   (c7_schedule_date_lookup demoSchedule 2019 4 2 23 59 0 0).2.2
     { MlbSched.baseGame with _date := some "Tuesday, Apr 2" } rfl,
   (c7_schedule_date_lookup demoSchedule 2019 7 4 12 0 0 0).2.1 (by
     intro g hg
     rcases List.mem_cons.mp hg with hg | hg
     · subst hg
       exact ⟨(2019, 4, 1), rfl, by decide⟩
     · rcases List.mem_cons.mp hg with hg | hg
       · subst hg
         exact ⟨(2019, 4, 2), rfl, by decide⟩
       · simp at hg)⟩

/-- C8: the cleanup helper removes every occurrence of the three noise
characters (and nothing else) before numeric parsing, so the example
tokens coerce to 12345 and 45.2, and a Game whose raw attendance is the
comma-grouped text coerces to 41212 (the attendance accessor strips commas
itself). -/
theorem c8_noise_stripping :
    (∀ s : String, (Ncaab.cleanup (some s)).data =
        s.data.filter (fun c => !(c == '%') && !(c == ',') && !(c == '+'))) ∧
    Ncaab.coerceIntToken (some "12,345") = some 12345 ∧
    Ncaab.coerceFloatToken (some "45.2%") = some ((226 : Rat) / 5) ∧
    MlbSched.Game.attendance
        { MlbSched.baseGame with _attendance := some "41,212" } = .ok 41212 := by
  refine ⟨cleanup_data_eq_filter, rfl, ?_, rfl⟩
  rw [show Ncaab.coerceFloatToken (some "45.2%") =
      some ((45 : Rat) + (2 : Rat) / 10 ^ 1) from rfl]
  simp only [Option.some.injEq]
  norm_num

/-- C9: a Team whose raw home record is the compound string 50-31 reports 50
home wins (sub-token position 0) and 31 home losses (sub-token position 1),
both accessors reading the same raw field. -/
theorem c9_home_record_sub_tokens :
    MlbTeams.Team.home_wins ⟨none, some "50-31"⟩ = some 50 ∧
    MlbTeams.Team.home_losses ⟨none, some "50-31"⟩ = some 31 :=
  ⟨rfl, rfl⟩

/-- C10: the innings accessor returns the default 9 when the raw innings
field is absent (None or the empty string), and the integer parse of the raw
text otherwise. -/
theorem c10_innings_default (g : MlbSched.Game) :
    (g._innings = none → MlbSched.Game.innings g = .ok 9) ∧
    (g._innings = some "" → MlbSched.Game.innings g = .ok 9) ∧
    (∀ s, g._innings = some s → s ≠ "" →
      MlbSched.Game.innings g = exceptOfOption .valueError (pyParseInt s)) := by
  refine ⟨?_, ?_, ?_⟩
  · intro h; simp [MlbSched.Game.innings, h]
  · intro h; simp [MlbSched.Game.innings, h]
  · intro s h hne; simp [MlbSched.Game.innings, h, hne]

/-- Witness for C10 at concrete games: an absent innings field and an empty
one default to 9, and the raw text 11 parses to 11. -/
theorem c10_innings_default_witness :
    MlbSched.Game.innings MlbSched.baseGame = .ok 9 ∧
    MlbSched.Game.innings { MlbSched.baseGame with _innings := some "" } = .ok 9 ∧
    MlbSched.Game.innings { MlbSched.baseGame with _innings := some "11" } = .ok 11 :=
  ⟨(c10_innings_default MlbSched.baseGame).1 rfl,
   (c10_innings_default { MlbSched.baseGame with _innings := some "" }).2.1 rfl,
   ((c10_innings_default { MlbSched.baseGame with _innings := some "11" }).2.2
       "11" rfl (by decide)).trans rfl⟩
